import Mathlib

/-!
Shallow embedding of the sensors.AFRICA API v2 statistics views
(`sensorsafrica/api/v2/views.py`): the numeric value filter applied to raw
textual sensor values, time-window resolution from `from`/`to` query
parameters, the grouped aggregation performed by
`SensorDataStatView.get_queryset`, the result shaping of
`CustomPagination.get_paginated_response`, and the fleet status listing of
`NodesView.list`.

Python strings and SQL text values are modelled as lists of characters;
timestamps as integers (seconds since the Unix epoch, UTC); SQL float
casts as rationals.
-/

/-- Texts (Python `str` / SQL text) are modelled as lists of characters. -/
abbrev Str := List Char

/-- ASCII digit test (the `\d` character class over ASCII input). -/
def isDigitChar (c : Char) : Bool := '0' ≤ c && c ≤ '9'

/-- Numeric value of an ASCII digit character. -/
def digitVal (c : Char) : Nat := c.toNat - 48

/-- Number denoted by a list of ASCII digits, most significant first. -/
def natOfDigits (l : Str) : Nat := l.foldl (fun a c => 10 * a + digitVal c) 0

/-! ## Numeric value filter

The source applies the regular expression `^\-?\d+(\.?\d+)?$` to each raw
textual value, both in the SQL `WHERE` clause of
`SensorDataStatView.get_queryset` (`v.value ~ '^\-?\d+(\.?\d+)?$'`) and in
the Django filter of `NodesView.list` (`value__regex=r"^\-?\d+(\.?\d+)?$"`).
The spec states the filter as `^-?\d+(\.\d+)?$`. We give both regexes a
denotational language and an executable matcher. -/

/-- One-or-more ASCII digits: the language of `\d+`. -/
def digits1 (l : Str) : Prop := l ≠ [] ∧ ∀ c ∈ l, isDigitChar c = true

/-- The unsigned part of the spec's regex: `\d+(\.\d+)?`. -/
def unsignedSpec (u : Str) : Prop :=
  ∃ intPart frac, u = intPart ++ frac ∧ digits1 intPart ∧
    (frac = [] ∨ ∃ f, frac = '.' :: f ∧ digits1 f)

/-- The language of the spec's regex `^-?\d+(\.\d+)?$`: an optional leading
minus sign, then one or more digits, then optionally a dot followed by one
or more digits. -/
def specRegexLang (s : Str) : Prop :=
  ∃ u, (s = u ∨ s = '-' :: u) ∧ unsignedSpec u

/-- The unsigned part of the source's regex: `\d+(\.?\d+)?` — the dot inside
the optional fractional group is itself optional. -/
def unsignedCode (u : Str) : Prop :=
  ∃ intPart frac, u = intPart ++ frac ∧ digits1 intPart ∧
    (frac = [] ∨ (∃ f, frac = '.' :: f ∧ digits1 f) ∨ digits1 frac)

/-- The language of the source's regex `^\-?\d+(\.?\d+)?$`. -/
def codeRegexLang (s : Str) : Prop :=
  ∃ u, (s = u ∨ s = '-' :: u) ∧ unsignedCode u

/-- Strip one optional leading minus sign (the `-?` of the regex). -/
def stripSign : Str → Str
  | '-' :: r => r
  | s => s

/-- Check of what may follow the integer digits: nothing, or a dot followed
by one or more digits. -/
def fracCheck (r : Str) : Bool :=
  match r with
  | [] => true
  | c :: t => decide (c = '.') && !t.isEmpty && t.all isDigitChar

/-- Executable matcher for the unsigned part of the numeric regex: one or
more digits, optionally followed by a dot and one or more digits. Because
`.` is not a digit, greedy digit consumption is exact for this pattern. -/
def unsignedMatch (u : Str) : Bool :=
  !(u.takeWhile isDigitChar).isEmpty && fracCheck (u.dropWhile isDigitChar)

/-- The numeric value filter of the source (`^\-?\d+(\.?\d+)?$`), as an
executable matcher. Used identically by the historical-stats SQL query and
the fleet-status Django filter. -/
def is_valid_numeric (s : Str) : Bool := unsignedMatch (stripSign s)

/-! ### Matcher correctness -/

lemma takeWhile_all_append (p : Char → Bool) (l r : Str)
    (hl : ∀ c ∈ l, p c = true)
    (hr : ∀ c, r.head? = some c → p c = false) :
    (l ++ r).takeWhile p = l ∧ (l ++ r).dropWhile p = r := by
  induction l with
  | nil =>
    cases r with
    | nil => simp
    | cons c t =>
      have hc := hr c rfl
      simp [List.takeWhile_cons, List.dropWhile_cons, hc]
  | cons c l ih =>
    have hc : p c = true := hl c (by simp)
    have ih' := ih (fun x hx => hl x (by simp [hx]))
    simp [List.takeWhile_cons, List.dropWhile_cons, hc, ih'.1, ih'.2]

lemma dot_not_digit : isDigitChar '.' = false := by decide

lemma digit_ne_minus {c : Char} (h : isDigitChar c = true) : c ≠ '-' := by
  intro hc
  subst hc
  simp [isDigitChar] at h

lemma fracCheck_iff (r : Str) :
    fracCheck r = true ↔ (r = [] ∨ ∃ f, r = '.' :: f ∧ digits1 f) := by
  cases r with
  | nil => simp [fracCheck]
  | cons c t =>
    simp only [fracCheck, Bool.and_eq_true, Bool.not_eq_true', decide_eq_true_eq,
      List.all_eq_true]
    constructor
    · rintro ⟨⟨rfl, hne⟩, hall⟩
      refine Or.inr ⟨t, rfl, ?_⟩
      refine ⟨?_, hall⟩
      intro habs
      rw [habs] at hne
      simp at hne
    · rintro (habs | ⟨f, heq, hfne, hall⟩)
      · exact absurd habs (by simp)
      · injection heq with h1 h2
        subst h1
        subst h2
        refine ⟨⟨rfl, ?_⟩, hall⟩
        cases t with
        | nil => exact absurd rfl hfne
        | cons a b => rfl

lemma unsignedMatch_iff (u : Str) : unsignedMatch u = true ↔ unsignedSpec u := by
  constructor
  · intro h
    unfold unsignedMatch at h
    simp only [Bool.and_eq_true, Bool.not_eq_true'] at h
    obtain ⟨hne, hrest⟩ := h
    have hsplit : u.takeWhile isDigitChar ++ u.dropWhile isDigitChar = u :=
      List.takeWhile_append_dropWhile isDigitChar u
    have hdigits : ∀ c ∈ u.takeWhile isDigitChar, isDigitChar c = true :=
      fun c hc => List.mem_takeWhile_imp hc
    have htne : u.takeWhile isDigitChar ≠ [] := by
      intro habs
      rw [habs] at hne
      simp at hne
    exact ⟨u.takeWhile isDigitChar, u.dropWhile isDigitChar, hsplit.symm, ⟨htne, hdigits⟩,
      (fracCheck_iff _).mp hrest⟩
  · rintro ⟨intPart, frac, rfl, ⟨hne, hdig⟩, hfrac⟩
    have hhead : ∀ c, frac.head? = some c → isDigitChar c = false := by
      rcases hfrac with rfl | ⟨f, rfl, _⟩
      · intro c hc; simp at hc
      · intro c hc
        simp only [List.head?] at hc
        injection hc with hc
        subst hc
        exact dot_not_digit
    have h := takeWhile_all_append isDigitChar intPart frac hdig hhead
    unfold unsignedMatch
    rw [h.1, h.2]
    simp only [Bool.and_eq_true, Bool.not_eq_true']
    constructor
    · cases intPart with
      | nil => exact absurd rfl hne
      | cons a b => rfl
    · exact (fracCheck_iff frac).mpr hfrac

lemma stripSign_of_head_not_minus {c : Char} (r : Str) (h : c ≠ '-') :
    stripSign (c :: r) = c :: r := by
  unfold stripSign
  split
  · rename_i heq
    cases heq
    exact absurd rfl h
  · rfl

lemma is_valid_numeric_iff_spec (s : Str) :
    is_valid_numeric s = true ↔ specRegexLang s := by
  constructor
  · intro h
    unfold is_valid_numeric at h
    cases s with
    | nil =>
      exfalso
      simp [stripSign, unsignedMatch] at h
    | cons c r =>
      by_cases hc : c = '-'
      · subst hc
        have : stripSign ('-' :: r) = r := rfl
        rw [this] at h
        exact ⟨r, Or.inr rfl, (unsignedMatch_iff r).mp h⟩
      · rw [stripSign_of_head_not_minus r hc] at h
        exact ⟨c :: r, Or.inl rfl, (unsignedMatch_iff (c :: r)).mp h⟩
  · rintro ⟨u, hs, hu⟩
    unfold is_valid_numeric
    have hm : unsignedMatch u = true := (unsignedMatch_iff u).mpr hu
    rcases hs with rfl | rfl
    · obtain ⟨intPart, frac, rfl, ⟨hne, hdig⟩, _⟩ := hu
      cases intPart with
      | nil => exact absurd rfl hne
      | cons c t =>
        have hcd : isDigitChar c = true := hdig c (by simp)
        rw [List.cons_append, stripSign_of_head_not_minus _ (digit_ne_minus hcd)]
        exact hm
    · have : stripSign ('-' :: u) = u := rfl
      rw [this]
      exact hm

lemma digits1_append {a b : Str} (ha : digits1 a) (hb : digits1 b) :
    digits1 (a ++ b) := by
  refine ⟨by simp [ha.1], ?_⟩
  intro c hc
  rcases List.mem_append.mp hc with h | h
  · exact ha.2 c h
  · exact hb.2 c h

lemma unsignedCode_iff_unsignedSpec (u : Str) : unsignedCode u ↔ unsignedSpec u := by
  constructor
  · rintro ⟨intPart, frac, rfl, hint, hfrac⟩
    rcases hfrac with rfl | hdot | hdig
    · exact ⟨intPart, [], rfl, hint, Or.inl rfl⟩
    · exact ⟨intPart, frac, rfl, hint, Or.inr hdot⟩
    · exact ⟨intPart ++ frac, [], by simp, digits1_append hint hdig, Or.inl rfl⟩
  · rintro ⟨intPart, frac, rfl, hint, hfrac⟩
    exact ⟨intPart, frac, rfl, hint, hfrac.imp id Or.inl⟩

lemma codeRegexLang_iff_specRegexLang (s : Str) : codeRegexLang s ↔ specRegexLang s := by
  unfold codeRegexLang specRegexLang
  constructor
  · rintro ⟨u, hs, hu⟩
    exact ⟨u, hs, (unsignedCode_iff_unsignedSpec u).mp hu⟩
  · rintro ⟨u, hs, hu⟩
    exact ⟨u, hs, (unsignedCode_iff_unsignedSpec u).mpr hu⟩

/-! ## Calendar arithmetic

`beginning_of_day` in the source parses a `%Y-%m-%d` string with
`datetime.strptime` and attaches UTC. We model a UTC timestamp as an
integer count of seconds since the Unix epoch, with the proleptic
Gregorian day count computed by the standard civil-calendar algorithm. -/

/-- Gregorian leap-year rule. -/
def isLeap (y : Nat) : Bool := y % 4 == 0 && (y % 100 != 0 || y % 400 == 0)

/-- Number of days in a month of the proleptic Gregorian calendar. -/
def daysInMonth (y m : Nat) : Nat :=
  if m = 2 then (if isLeap y then 29 else 28)
  else if m = 4 ∨ m = 6 ∨ m = 9 ∨ m = 11 then 30
  else 31

/-- Days from the Unix epoch (1970-01-01) to the given civil date
(negative for earlier dates). Standard era-based algorithm. -/
def daysFromCivil (y : Int) (m d : Nat) : Int :=
  let yAdj : Int := if m ≤ 2 then y - 1 else y
  let era : Int := yAdj.fdiv 400
  let yoe : Nat := (yAdj - era * 400).toNat
  let mp : Nat := if m ≤ 2 then m + 9 else m - 3
  let doy : Nat := (153 * mp + 2) / 5 + (d - 1)
  let doe : Nat := yoe * 365 + yoe / 4 - yoe / 100 + doy
  era * 146097 + (doe : Int) - 719468

/-- The civil date of a day count from the Unix epoch (inverse of
`daysFromCivil`). -/
def civilFromDays (z0 : Int) : Int × Nat × Nat :=
  let z : Int := z0 + 719468
  let era : Int := z.fdiv 146097
  let doe : Nat := (z - era * 146097).toNat
  let yoe : Nat := (doe - doe / 1460 + doe / 36524 - doe / 146096) / 365
  let doy : Nat := doe - (365 * yoe + yoe / 4 - yoe / 100)
  let mp : Nat := (5 * doy + 2) / 153
  let d : Nat := doy - (153 * mp + 2) / 5 + 1
  let m : Nat := if mp < 10 then mp + 3 else mp - 9
  (era * 400 + yoe + (if m ≤ 2 then 1 else 0), m, d)

/-- Timestamp of UTC midnight of a civil date. -/
def midnight (y : Int) (m d : Nat) : Int := 86400 * daysFromCivil y m d

/-! ## `strptime("%Y-%m-%d")`

`validate_date` and `beginning_of_day` both call
`datetime.datetime.strptime(text, "%Y-%m-%d")`. CPython's `_strptime`
matches `%Y` with `\d\d\d\d`, `%m` with `1[0-2]|0[1-9]|[1-9]` and `%d` with
`3[01]|[12]\d|0[1-9]|[1-9]`, requires the whole string to be consumed, and
then constructs a `datetime`, which checks `1 ≤ year` and that the day
exists in the month. We embed that behaviour for ASCII input. -/

/-- `%m` as a single digit: `[1-9]`. -/
def month1ok (a : Char) : Bool := decide ('1' ≤ a) && decide (a ≤ '9')

/-- `%m` as two digits: `1[0-2]|0[1-9]`. -/
def month2ok (a b : Char) : Bool :=
  (decide (a = '1') && decide ('0' ≤ b) && decide (b ≤ '2')) ||
  (decide (a = '0') && decide ('1' ≤ b) && decide (b ≤ '9'))

/-- `%d` as a single digit: `[1-9]`. -/
def day1ok (a : Char) : Bool := decide ('1' ≤ a) && decide (a ≤ '9')

/-- `%d` as two digits: `3[01]|[12]\d|0[1-9]`. -/
def day2ok (a b : Char) : Bool :=
  (decide (a = '3') && (decide (b = '0') || decide (b = '1'))) ||
  ((decide (a = '1') || decide (a = '2')) && isDigitChar b) ||
  (decide (a = '0') && decide ('1' ≤ b) && decide (b ≤ '9'))

/-- Continuation of a two-digit month: the dash must follow. -/
def parseMonth2Tail (a b : Char) : Str → Option (Nat × Str)
  | c :: r2 =>
    if c = '-' then
      if month2ok a b then some (10 * digitVal a + digitVal b, r2) else none
    else none
  | [] => none

/-- Parse `%m` followed by the literal `-`, returning the month and the
remaining characters. A two-digit month is preferred; a one-digit month is
accepted exactly when the next character is the dash. -/
def parseMonthDash : Str → Option (Nat × Str)
  | a :: b :: r =>
    if b = '-' then
      if month1ok a then some (digitVal a, r) else none
    else parseMonth2Tail a b r
  | _ => none

/-- Parse `%d` anchored at the end of the string (strptime rejects
unconverted trailing data). -/
def parseDayEnd : Str → Option Nat
  | [a] => if day1ok a then some (digitVal a) else none
  | [a, b] => if day2ok a b then some (10 * digitVal a + digitVal b) else none
  | _ => none

/-- Parse the `\d\d\d\d-` year prefix and then month and day. -/
def parseYMD (s : Str) : Option (Nat × Nat × Nat) :=
  match s with
  | c1 :: c2 :: c3 :: c4 :: h :: rest =>
    if h = '-' ∧ isDigitChar c1 = true ∧ isDigitChar c2 = true ∧ isDigitChar c3 = true ∧
        isDigitChar c4 = true then
      match parseMonthDash rest with
      | some (m, rest2) =>
        match parseDayEnd rest2 with
        | some d => some (natOfDigits [c1, c2, c3, c4], m, d)
        | none => none
      | none => none
    else none
  | _ => none

/-- `datetime.datetime.strptime(s, "%Y-%m-%d")`: parse per the format
regexes, then construct the date, which requires `1 ≤ year` and a day that
exists in the month. Returns the date on success. -/
def strptimeYMD (s : Str) : Option (Nat × Nat × Nat) :=
  match parseYMD s with
  | some (y, m, d) => if 1 ≤ y ∧ d ≤ daysInMonth y m then some (y, m, d) else none
  | none => none

/-- `validate_date` of the source: `strptime` succeeds (the source raises
`ValidationError` exactly when `strptime` raises `ValueError`). -/
def validate_date (s : Str) : Bool := (strptimeYMD s).isSome

/-- The spec's stated format: exactly `YYYY-MM-DD` with a four-digit year
and two-digit zero-padded month and day. (Stated from the spec's words for
comparison; the source's `validate_date` is the authority.) -/
def specExactYMD (s : Str) : Bool :=
  match s with
  | [c1, c2, c3, c4, h1, m1, m2, h2, d1, d2] =>
    isDigitChar c1 && isDigitChar c2 && isDigitChar c3 && isDigitChar c4 &&
    decide (h1 = '-') && isDigitChar m1 && isDigitChar m2 &&
    decide (h2 = '-') && isDigitChar d1 && isDigitChar d2
  | _ => false

/-- `beginning_of_day` of the source: parse the date string and take UTC
midnight. (Total function; only used on validated input.) -/
def beginning_of_day (s : Str) : Int :=
  match strptimeYMD s with
  | some (y, m, d) => midnight (y : Int) m d
  | none => 0

/-- `end_of_day` of the source: `beginning_of_day` plus 24 hours. -/
def end_of_day (s : Str) : Int := beginning_of_day s + 86400

/-- `beginning_of_today` of the source: the current timestamp with the
time-of-day fields zeroed (UTC midnight of the current day). -/
def beginning_of_today (now : Int) : Int := 86400 * now.fdiv 86400

/-! ## Readings and the grouped aggregation

The SQL of `SensorDataStatView.get_queryset` joins `sensors_sensordatavalue`
to `sensors_sensordata` (timestamp) and `sensors_sensorlocation` (city); we
flatten a joined row into a `Reading`. `CAST("value" as float)` is modelled
as exact decimal parsing into `ℚ`. -/

/-- One joined row: a sensor data value with its timestamp and city. -/
structure Reading where
  value_type : Str
  value : Str
  timestamp : Int
  city : Str
deriving DecidableEq

/-- Decimal value of the unsigned part of a numeric text. -/
def parseDecimalUnsigned (u : Str) : ℚ :=
  match u.dropWhile isDigitChar with
  | '.' :: t => (natOfDigits (u.takeWhile isDigitChar) : ℚ) + (natOfDigits t : ℚ) / ((10 : ℚ) ^ t.length)
  | _ => (natOfDigits (u.takeWhile isDigitChar) : ℚ)

/-- `CAST(value as float)` on a text admitted by the numeric filter. -/
def parseDecimal (s : Str) : ℚ :=
  match s with
  | '-' :: r => - parseDecimalUnsigned r
  | _ => parseDecimalUnsigned s

/-- `DATE_TRUNC(unit, timestamp)` for the granularities of the spec's
enumeration (minute, hour, day, month), in UTC. (The full unit set of the
database's `DATE_TRUNC` is not under src/; the spec's granularity
enumeration is modelled.) -/
def dateTrunc (unit : Str) (t : Int) : Int :=
  if unit = ("minute").data then 60 * t.fdiv 60
  else if unit = ("hour").data then 3600 * t.fdiv 3600
  else if unit = ("day").data then 86400 * t.fdiv 86400
  else if unit = ("month").data then
    match civilFromDays (t.fdiv 86400) with
    | (y, m, _) => 86400 * daysFromCivil y m 1
  else t

/-- Granularities accepted by the truncation step. -/
def truncUnitOk (u : Str) : Bool :=
  decide (u = ("minute").data) || decide (u = ("hour").data) ||
  decide (u = ("day").data) || decide (u = ("month").data)

/-- The `WHERE` clause of the statistics SQL: value type in the filter set,
value matching the numeric regex, city in the requested set (or no city
filter when the set is empty), and `from_date <= timestamp <= to_date`. -/
def admitted (fvt cities : List Str) (lo hi : Int) (r : Reading) : Bool :=
  decide (r.value_type ∈ fvt) && is_valid_numeric r.value &&
  (cities.isEmpty || decide (r.city ∈ cities)) &&
  decide (lo ≤ r.timestamp) && decide (r.timestamp ≤ hi)

/-- The `GROUP BY DATE_TRUNC(%(trunc)s, timestamp), value_type, city` key. -/
def groupKey (unit : Str) (r : Reading) : Int × Str × Str :=
  (dateTrunc unit r.timestamp, r.value_type, r.city)

/-- One output row of the statistics SQL: city, the group's min/max
timestamps, `sum(value)/COUNT(*)`, min/max value, value type, and the
`COUNT(*)` the query computes for the average's denominator. -/
structure StatRow where
  city_name : Str
  start_datetime : Int
  end_datetime : Int
  average : ℚ
  minimum : ℚ
  maximum : ℚ
  value_type : Str
  sample_count : Nat
deriving DecidableEq

/-- The grouped aggregation of the statistics SQL over already-filtered
rows: group by `(truncated timestamp, value_type, city)` and compute the
aggregates per group. Row order is unspecified in SQL; the model lists
groups by key. -/
def aggregate (unit : Str) (rs : List Reading) : List StatRow :=
  ((rs.map (groupKey unit)).dedup).filterMap (fun k =>
    match rs.filter (fun r => decide (groupKey unit r = k)) with
    | [] => none
    | r0 :: rest =>
      some {
        city_name := k.2.2
        start_datetime := (rest.map (fun r => r.timestamp)).foldl min r0.timestamp
        end_datetime := (rest.map (fun r => r.timestamp)).foldl max r0.timestamp
        average := ((r0 :: rest).map (fun r => parseDecimal r.value)).sum /
          (((r0 :: rest).length : ℚ))
        minimum := (rest.map (fun r => parseDecimal r.value)).foldl min (parseDecimal r0.value)
        maximum := (rest.map (fun r => parseDecimal r.value)).foldl max (parseDecimal r0.value)
        value_type := k.2.1
        sample_count := (r0 :: rest).length })

/-! ## The statistics request -/

/-- The module-level `value_types` table: `{"air": [...]}`. -/
def value_types : List (Str × List Str) :=
  [(("air").data, [("P1").data, ("P2").data, ("humidity").data, ("temperature").data])]

/-- Dictionary lookup `value_types[sensor_type]`. -/
def lookupValueTypes (k : Str) : Option (List Str) :=
  (value_types.find? (fun kv => decide (kv.1 = k))).map (fun kv => kv.2)

/-- Python truthiness of an optional query parameter: present and
non-empty. -/
def truthy : Option Str → Bool
  | none => false
  | some s => !s.isEmpty

/-- Python `str.split(",")`. -/
def splitComma (l : Str) : List Str :=
  match l with
  | [] => [[]]
  | ',' :: t => [] :: splitComma t
  | c :: t =>
    match splitComma t with
    | h :: r => (c :: h) :: r
    | [] => [[c]]

/-- Python `str.upper()` on ASCII text. -/
def upperStr (s : Str) : Str := s.map Char.toUpper

/-- The value-type filter of `get_queryset`: if a `value_type` parameter is
supplied (truthy), intersect its uppercased comma-separated tags with the
uppercased allowed tags; otherwise use the allowed tags as configured. -/
def computeFilterValueTypes (allowed : List Str) (param : Option Str) : List Str :=
  match param with
  | some p =>
    if p.isEmpty then allowed
    else (splitComma (upperStr p)).filter (fun t => decide (t ∈ allowed.map upperStr))
  | none => allowed

/-- Failure modes of the statistics request. -/
inductive StatError
  | validation
  | notFound
  | database
deriving DecidableEq

/-- Modelled from the spec: the HTTP layer (REST framework exception
handling and routing, not under src/) maps `ValidationError` to 400, Not
Found to 404, and a database failure to a server error (spec section 7). -/
def httpStatus : StatError → Nat
  | .validation => 400
  | .notFound => 404
  | .database => 500

/-- The time-window resolution of `get_queryset` lines 119-148: reject `to`
without `from`; validate each supplied date; then pick the window for the
rolling, from-only, or both-dates case. -/
def resolveWindowE (now : Int) (f t : Option Str) : Except StatError (Int × Int) :=
  if truthy t && !truthy f then .error .validation
  else if truthy f && !validate_date (f.getD []) then .error .validation
  else if truthy t && !validate_date (t.getD []) then .error .validation
  else .ok (
    if !truthy f && !truthy t then (now - 86400, now)
    else if !truthy t then (beginning_of_day (f.getD []), beginning_of_today now)
    else (beginning_of_day (f.getD []), end_of_day (t.getD [])))

/-- Query parameters of the historical statistics endpoint. -/
structure StatsParams where
  sensor_type : Str
  city : Option Str
  from_date : Option Str
  to_date : Option Str
  avg : Option Str
  value_type : Option Str

/-- `city_names.split(',') if city_names else []`. -/
def cityNamesOf : Option Str → List Str
  | some c => if c.isEmpty then [] else splitComma c
  | none => []

/-- The historical statistics request: `SensorDataStatView.get_queryset`
over a database of joined readings. An unknown `sensor_type` is rejected
with Not Found (modelled from the spec: the URL routing that rejects an
unconfigured `sensor_type` before the view runs is not under src/; inside
the view the lookup `value_types[sensor_type]` fails for such a key). -/
def statsRequest (now : Int) (db : List Reading) (p : StatsParams) :
    Except StatError (List StatRow) :=
  match lookupValueTypes p.sensor_type with
  | none => .error .notFound
  | some allowed =>
    match resolveWindowE now p.from_date p.to_date with
    | .error e => .error e
    | .ok (lo, hi) =>
      if truncUnitOk (p.avg.getD (("day").data)) then
        .ok (aggregate (p.avg.getD (("day").data))
          (db.filter (admitted (computeFilterValueTypes allowed p.value_type)
            (cityNamesOf p.city) lo hi)))
      else .error .database

deriving instance DecidableEq for Except

/-! ## Result shaping (`CustomPagination.get_paginated_response`)

The paginator reshapes the flat grouped rows into a per-city, per-value-type
structure. When the request carried a (truthy) `from` parameter each value
type maps to a list of bucket summaries, appended in encounter order;
otherwise each value type maps to a single dict that every new row
overwrites. Python dicts preserve insertion order, modelled by association
lists. -/

/-- The five summary fields copied from a row into the response. -/
structure Summary where
  average : ℚ
  minimum : ℚ
  maximum : ℚ
  start_datetime : Int
  end_datetime : Int
deriving DecidableEq

/-- The summary of one grouped row. -/
def summaryOf (r : StatRow) : Summary :=
  { average := r.average, minimum := r.minimum, maximum := r.maximum,
    start_datetime := r.start_datetime, end_datetime := r.end_datetime }

/-- A value-type slot: a list of summaries (date-ranged request) or a single
overwritable summary (rolling request). -/
inductive VTEntry
  | ranged (buckets : List Summary)
  | single (current : Option Summary)
deriving DecidableEq

/-- `[] if from_date else {}`. -/
def emptyVT (isRanged : Bool) : VTEntry :=
  if isRanged then .ranged [] else .single none

/-- `values.append(summary)` or `values.update(summary)`. -/
def includeResult (e : VTEntry) (s : Summary) : VTEntry :=
  match e with
  | .ranged l => .ranged (l ++ [s])
  | .single _ => .single (some s)

/-- One city's slot in `results`: the city name plus its value-type map. -/
structure CityEntry where
  city_name : Str
  entries : List (Str × VTEntry)
deriving DecidableEq

/-- Update (or create) the slot of one value type inside a city. -/
def updateVTList (isRanged : Bool) (l : List (Str × VTEntry)) (vt : Str) (s : Summary) :
    List (Str × VTEntry) :=
  match l with
  | [] => [(vt, includeResult (emptyVT isRanged) s)]
  | (k, e) :: rest =>
    if k = vt then (k, includeResult e s) :: rest
    else (k, e) :: updateVTList isRanged rest vt s

/-- Process one grouped row into the accumulated per-city structure. -/
def shapeStep (isRanged : Bool) (acc : List CityEntry) (r : StatRow) : List CityEntry :=
  match acc with
  | [] => [⟨r.city_name, [(r.value_type, includeResult (emptyVT isRanged) (summaryOf r))]⟩]
  | e :: rest =>
    if e.city_name = r.city_name then
      ⟨e.city_name, updateVTList isRanged e.entries r.value_type (summaryOf r)⟩ :: rest
    else e :: shapeStep isRanged rest r

/-- The shaping loop of `get_paginated_response` over the page's rows. -/
def shape (isRanged : Bool) (rows : List StatRow) : List CityEntry :=
  rows.foldl (shapeStep isRanged) []

/-- The response envelope: `count` is the number of distinct cities in
`results`, not the number of buckets. -/
structure PagedStats where
  count : Nat
  results : List CityEntry
deriving DecidableEq

/-- `get_paginated_response` (without the next/previous links, which are
HTTP plumbing): shape the rows, then report the city count. -/
def get_paginated_response (isRanged : Bool) (rows : List StatRow) : PagedStats :=
  { count := (shape isRanged rows).length, results := shape isRanged rows }

/-! ## Fleet status (`NodesView.list`) -/

/-- A sensor location row (`sensors_sensorlocation`): id, display name
(the model's `location` field), coordinates and city label. -/
structure Location where
  locId : Int
  name : Str
  longitude : ℚ
  latitude : ℚ
  city : Str
deriving DecidableEq

/-- A node row: primary key, uid, current location, associated sensor ids. -/
structure NodeRec where
  nodeId : Int
  uid : Str
  location : Location
  sensors : List Int
deriving DecidableEq

/-- A `LastActiveNodes` row: node reference, location at last activity, and
the last time data was received (nullable). -/
structure LastActive where
  nodeId : Int
  location : Location
  last_data_received_at : Option Int
deriving DecidableEq

/-- A `SensorDataValue` row joined with its sensor data: value type and raw
text, timestamp, and the owning node / location / sensor ids. -/
structure SDV where
  value_type : Str
  value : Str
  timestamp : Int
  nodeId : Int
  locId : Int
  sensorId : Int
deriving DecidableEq

/-- The read-only state the fleet view queries. -/
structure FleetDb where
  nodes : List NodeRec
  lastActive : List LastActive
  sensorValues : List SDV

/-- Modelled from the spec: cities carry a slugified label
(`django.utils.text.slugify` is not under src/); lowercase the name and
hyphenate spaces. -/
def slugify (s : Str) : Str :=
  (s.map Char.toLower).map (fun c => if c = ' ' then '-' else c)

/-- A city object in the response: name plus slug. -/
structure CityRef where
  name : Str
  slug : Str
deriving DecidableEq

/-- A location object in the response. -/
structure LocationOut where
  name : Str
  longitude : ℚ
  latitude : ℚ
  city : CityRef
deriving DecidableEq

/-- Serialize a location row for the response. -/
def locationOut (l : Location) : LocationOut :=
  { name := l.name, longitude := l.longitude, latitude := l.latitude,
    city := { name := l.city, slug := slugify l.city } }

/-- One row of the per-node trailing statistics. -/
structure FleetStatRow where
  value_type : Str
  sensor_id : Int
  start_datetime : Int
  end_datetime : Int
  average : ℚ
  minimum : ℚ
  maximum : ℚ
deriving DecidableEq

/-- The Django filter of the trailing-stats query: same node and location as
the snapshot, timestamp within the 5 minutes up to
`last_data_received_at` (inclusive at both ends), value type other than
`"timestamp"`, and the numeric value filter. -/
def fleetAdmitted (s : LastActive) (t : Int) (v : SDV) : Bool :=
  decide (v.nodeId = s.nodeId) && decide (v.locId = s.location.locId) &&
  decide (t - 300 ≤ v.timestamp) && decide (v.timestamp ≤ t) &&
  !(decide (v.value_type = ("timestamp").data)) && is_valid_numeric v.value

/-- `.values("value_type").annotate(sensor_id=F(...), ...)` groups by
`(value_type, sensor_id)` (an `F` expression in `annotate` joins the group
key) and aggregates the rest. -/
def nodeStats (db : FleetDb) (s : LastActive) : List FleetStatRow :=
  match s.last_data_received_at with
  | none => []
  | some t =>
    let adm := db.sensorValues.filter (fleetAdmitted s t)
    ((adm.map (fun v => (v.value_type, v.sensorId))).dedup).filterMap (fun k =>
      match adm.filter (fun v => decide ((v.value_type, v.sensorId) = k)) with
      | [] => none
      | v0 :: rest =>
        some { value_type := k.1, sensor_id := k.2,
               start_datetime := (rest.map (fun v => v.timestamp)).foldl min v0.timestamp,
               end_datetime := (rest.map (fun v => v.timestamp)).foldl max v0.timestamp,
               average := ((v0 :: rest).map (fun v => parseDecimal v.value)).sum /
                 (((v0 :: rest).length : ℚ)),
               minimum := (rest.map (fun v => parseDecimal v.value)).foldl min
                 (parseDecimal v0.value),
               maximum := (rest.map (fun v => parseDecimal v.value)).foldl max
                 (parseDecimal v0.value) })

/-- Failures of the unguarded `.get()` call. -/
inductive FleetError
  | doesNotExist
  | multipleReturned
deriving DecidableEq

/-- One node's entry in the fleet status response. -/
structure NodeStatus where
  node_moved : Bool
  moved_to : Option LocationOut
  node_uid : Str
  node_id : Int
  location : LocationOut
  last_data_received_at : Option Int
  stats : List FleetStatRow
deriving DecidableEq

/-- Processing of one `LastActiveNodes` row:
`Node.objects.filter(Q(id=last_active.node.id), ~Q(sensors=None)).get()`
raises `DoesNotExist` when the node has no sensors (the filtered queryset is
empty) — the exception is not caught. The emitted uid is read from the
node row (the snapshot's FK and the fetched row are the same primary-key
row). -/
def processSnapshot (db : FleetDb) (s : LastActive) : Except FleetError NodeStatus :=
  match db.nodes.filter (fun n => decide (n.nodeId = s.nodeId) && !n.sensors.isEmpty) with
  | [] => .error .doesNotExist
  | [n] =>
    let stats := nodeStats db s
    let moved : Option LocationOut :=
      if s.location.locId ≠ n.location.locId then some (locationOut n.location) else none
    .ok { node_moved := moved.isSome, moved_to := moved,
          node_uid := n.uid, node_id := s.nodeId,
          location := locationOut s.location,
          last_data_received_at := s.last_data_received_at,
          stats := stats }
  | _ => .error .multipleReturned

/-- The loop of `NodesView.list` over all snapshots: statuses are appended
in iteration order; an uncaught exception aborts the whole request. -/
def nodesListGo (db : FleetDb) : List LastActive → Except FleetError (List NodeStatus)
  | [] => .ok []
  | s :: rest =>
    match processSnapshot db s with
    | .error e => .error e
    | .ok st =>
      match nodesListGo db rest with
      | .error e => .error e
      | .ok sts => .ok (st :: sts)

/-- `NodesView.list`: the fleet status response. -/
def nodesList (db : FleetDb) : Except FleetError (List NodeStatus) :=
  nodesListGo db db.lastActive

/-! ## Helper lemmas -/

lemma char_eq_iff_toNat {a b : Char} : a = b ↔ a.toNat = b.toNat := by
  constructor
  · intro h
    subst h
    rfl
  · intro h
    exact Char.ext (UInt32.ext h)

lemma char_le_iff_toNat {a b : Char} : (a ≤ b) ↔ (a.toNat ≤ b.toNat) := Iff.rfl

lemma truthy_of_ne_nil {s : Str} (h : s ≠ []) : truthy (some s) = true := by
  cases s with
  | nil => exact absurd rfl h
  | cons a t => rfl

lemma strptimeYMD_ne_nil {s : Str} {v : Nat × Nat × Nat} (h : strptimeYMD s = some v) :
    s ≠ [] := by
  intro habs
  subst habs
  simp [strptimeYMD, parseYMD] at h

lemma foldl_min_le_init {α : Type} [LinearOrder α] (l : List α) (a : α) :
    l.foldl min a ≤ a := by
  induction l generalizing a with
  | nil => simp
  | cons x l ih => exact le_trans (ih (min a x)) (min_le_left a x)

lemma init_le_foldl_max {α : Type} [LinearOrder α] (l : List α) (a : α) :
    a ≤ l.foldl max a := by
  induction l generalizing a with
  | nil => simp
  | cons x l ih => exact le_trans (le_max_left a x) (ih (max a x))

lemma filter_eq_nil_of_all_false {α : Type} (p : α → Bool) (l : List α) :
    (∀ a ∈ l, p a = false) → l.filter p = [] := by
  induction l with
  | nil => intro _; rfl
  | cons x l ih =>
    intro h
    have hx := h x (by simp)
    rw [List.filter_cons, if_neg (by simp [hx])]
    exact ih (fun a ha => h a (by simp [ha]))

/-! ## Claims -/

/-- C1: a value text is admitted as a sample (the predicate shared by the
historical-stats SQL and the fleet-status filter) exactly when it matches
the spec's regex `^-?\d+(\.\d+)?$`; the source's regex `^\-?\d+(\.?\d+)?$`
denotes exactly the same language; and empty strings, multiple signs,
multiple decimal points, non-digit content and scientific notation are
rejected. -/
theorem C1_numeric_filter (s : Str) :
    (is_valid_numeric s = true ↔ specRegexLang s) ∧
    (codeRegexLang s ↔ specRegexLang s) ∧
    is_valid_numeric [] = false ∧
    is_valid_numeric (("-12.5").data) = true ∧
    is_valid_numeric (("--1").data) = false ∧
    is_valid_numeric (("1.2.3").data) = false ∧
    is_valid_numeric (("1e5").data) = false ∧
    is_valid_numeric ((".5").data) = false :=
  ⟨is_valid_numeric_iff_spec s, codeRegexLang_iff_specRegexLang s,
    by decide, by decide, by decide, by decide, by decide, by decide⟩

/-- Parameters requesting 2023-01-01 through 2023-01-03 on the air stats
endpoint. -/
def c2Params : StatsParams :=
  { sensor_type := ("air").data, city := none,
    from_date := some (("2023-01-01").data),
    to_date := some (("2023-01-03").data),
    avg := none, value_type := none }

/-- A reading stamped exactly at the resolved window end. -/
def c2Reading : Reading :=
  { value_type := ("P1").data, value := ("5").data,
    timestamp := midnight 2023 1 4, city := ("Nairobi").data }

/-- C2 counterexample: the window resolved for 2023-01-01..2023-01-03 ends
at midnight of 2023-01-04, and a single reading stamped exactly at that end
produces a bucket — the reading is NOT excluded, so the window is not
half-open as claimed. -/
theorem C2_counterexample :
    resolveWindowE 0 c2Params.from_date c2Params.to_date =
      .ok (midnight 2023 1 1, midnight 2023 1 4) ∧
    c2Reading.timestamp = midnight 2023 1 4 ∧
    (statsRequest 0 [c2Reading] c2Params).map List.length = .ok 1 :=
  ⟨by decide, by decide, by decide⟩

/-- C2 amended: the aggregation window is closed at both ends — a reading
passes the query's filter iff (besides the value-type, numeric-value and
city conditions) `start ≤ timestamp ≤ end`; a reading stamped exactly at
the end is included, not excluded. -/
theorem C2_window_closed :
    (∀ (fvt cities : List Str) (lo hi : Int) (r : Reading),
      admitted fvt cities lo hi r = true ↔
        (r.value_type ∈ fvt ∧ is_valid_numeric r.value = true ∧
         (cities = [] ∨ r.city ∈ cities) ∧ lo ≤ r.timestamp ∧ r.timestamp ≤ hi)) ∧
    admitted [("P1").data] [] 0 100
      { value_type := ("P1").data, value := ("5").data, timestamp := 100,
        city := ("Nairobi").data } = true := by
  constructor
  · intro fvt cities lo hi r
    simp only [admitted, Bool.and_eq_true, Bool.or_eq_true, decide_eq_true_eq,
      List.isEmpty_iff]
    tauto
  · decide

/-- C3: with both date parameters supplied and valid, the resolved window
runs from UTC midnight of the `from` date to UTC midnight of the `to` date
plus 24 hours; concretely, 2023-01-01..2023-01-03 resolves to start
2023-01-01T00:00Z and end 2023-01-04T00:00Z. -/
theorem C3_both_dates (now : Int) (f t : Str) (yf mf df yt mt d2 : Nat)
    (hf : strptimeYMD f = some (yf, mf, df))
    (ht : strptimeYMD t = some (yt, mt, d2)) :
    resolveWindowE now (some f) (some t) =
      .ok (midnight (yf : Int) mf df, midnight (yt : Int) mt d2 + 86400) ∧
    resolveWindowE 0 (some (("2023-01-01").data)) (some (("2023-01-03").data)) =
      .ok (midnight 2023 1 1, midnight 2023 1 4) := by
  constructor
  · have htf : truthy (some f) = true := truthy_of_ne_nil (strptimeYMD_ne_nil hf)
    have htt : truthy (some t) = true := truthy_of_ne_nil (strptimeYMD_ne_nil ht)
    have hvf : validate_date f = true := by simp [validate_date, hf]
    have hvt : validate_date t = true := by simp [validate_date, ht]
    simp [resolveWindowE, htf, htt, hvf, hvt, beginning_of_day, end_of_day, hf, ht]
  · decide

/-- C3 witness: the window resolution at the concrete dates of the claim. -/
theorem C3_both_dates_witness :
    strptimeYMD (("2023-01-01").data) = some (2023, 1, 1) ∧
    strptimeYMD (("2023-01-03").data) = some (2023, 1, 3) ∧
    resolveWindowE 0 (some (("2023-01-01").data)) (some (("2023-01-03").data)) =
      .ok (midnight 2023 1 1, midnight 2023 1 3 + 86400) ∧
    midnight 2023 1 3 + 86400 = midnight 2023 1 4 :=
  ⟨by decide, by decide,
    (C3_both_dates 0 (("2023-01-01").data) (("2023-01-03").data) 2023 1 1 2023 1 3
      (by decide) (by decide)).1, by decide⟩

/-- C6: a request whose `sensor_type` is not a key of the configured
value-type table fails with Not Found (HTTP 404), whatever the database and
the other parameters. -/
theorem C6_unknown_sensor_type (now : Int) (db : List Reading) (p : StatsParams)
    (h : lookupValueTypes p.sensor_type = none) :
    statsRequest now db p = .error .notFound ∧ httpStatus .notFound = 404 := by
  unfold statsRequest
  rw [h]
  exact ⟨rfl, rfl⟩

/-- Parameters naming an unconfigured sensor type. -/
def c6Params : StatsParams :=
  { sensor_type := ("water").data, city := none, from_date := none,
    to_date := none, avg := none, value_type := none }

/-- C6 witness: the concrete unknown sensor type `water`. -/
theorem C6_unknown_sensor_type_witness :
    lookupValueTypes c6Params.sensor_type = none ∧
    statsRequest 0 [] c6Params = .error .notFound ∧ httpStatus .notFound = 404 :=
  ⟨by decide, (C6_unknown_sensor_type 0 [] c6Params (by decide)).1,
    (C6_unknown_sensor_type 0 [] c6Params (by decide)).2⟩

/-- C7: whenever the `to` parameter is supplied (truthy) and `from` is not,
the request fails with `ValidationError` — for every database, so no
aggregation is performed. -/
theorem C7_to_without_from (now : Int) (db : List Reading) (p : StatsParams)
    (hs : (lookupValueTypes p.sensor_type).isSome = true)
    (ht : truthy p.to_date = true) (hf : truthy p.from_date = false) :
    statsRequest now db p = .error .validation ∧ httpStatus .validation = 400 := by
  have hw : resolveWindowE now p.from_date p.to_date = .error .validation := by
    unfold resolveWindowE
    rw [ht, hf]
    simp
  cases hl : lookupValueTypes p.sensor_type with
  | none =>
    rw [hl] at hs
    simp at hs
  | some allowed =>
    unfold statsRequest
    rw [hl, hw]
    exact ⟨rfl, rfl⟩

/-- Parameters with `to` supplied and `from` absent. -/
def c7Params : StatsParams :=
  { sensor_type := ("air").data, city := none, from_date := none,
    to_date := some (("2023-01-03").data), avg := none, value_type := none }

/-- C7 witness: the concrete `to`-without-`from` request. -/
theorem C7_to_without_from_witness :
    (lookupValueTypes c7Params.sensor_type).isSome = true ∧
    truthy c7Params.to_date = true ∧ truthy c7Params.from_date = false ∧
    statsRequest 0 [c2Reading] c7Params = .error .validation :=
  ⟨by decide, by decide, by decide,
    (C7_to_without_from 0 [c2Reading] c7Params (by decide) (by decide) (by decide)).1⟩

/-- C4: every bucket the aggregation emits counts at least one sample and
has ordered time bounds; every emitted bucket's group contains a reading
admitted by the filter — hence with a numeric-valid value — bearing the
bucket's value type and city; and when no reading's value passes the
numeric filter, a successful request yields no buckets at all (never a
zero-count or zero-average bucket). -/
theorem C4_bucket_invariants :
    (∀ (unit : Str) (rs : List Reading) (row : StatRow), row ∈ aggregate unit rs →
      1 ≤ row.sample_count ∧ row.start_datetime ≤ row.end_datetime) ∧
    (∀ (unit : Str) (fvt cities : List Str) (lo hi : Int) (db : List Reading) (row : StatRow),
      row ∈ aggregate unit (db.filter (admitted fvt cities lo hi)) →
      ∃ r ∈ db, admitted fvt cities lo hi r = true ∧ is_valid_numeric r.value = true ∧
        r.value_type = row.value_type ∧ r.city = row.city_name) ∧
    (∀ (now : Int) (db : List Reading) (p : StatsParams) (rows : List StatRow),
      statsRequest now db p = .ok rows →
      (∀ r ∈ db, is_valid_numeric r.value = false) → rows = []) := by
  refine ⟨?_, ?_, ?_⟩
  · intro unit rs row hmem
    unfold aggregate at hmem
    rw [List.mem_filterMap] at hmem
    obtain ⟨k, hk, hsome⟩ := hmem
    cases hfl : rs.filter (fun r => decide (groupKey unit r = k)) with
    | nil =>
      rw [hfl] at hsome
      exact absurd hsome (by simp)
    | cons r0 rest =>
      rw [hfl] at hsome
      injection hsome with hsome
      subst hsome
      constructor
      · show 1 ≤ (r0 :: rest).length
        simp
      · exact le_trans (foldl_min_le_init (rest.map (fun r => r.timestamp)) r0.timestamp)
          (init_le_foldl_max (rest.map (fun r => r.timestamp)) r0.timestamp)
  · intro unit fvt cities lo hi db row hmem
    unfold aggregate at hmem
    rw [List.mem_filterMap] at hmem
    obtain ⟨k, hk, hsome⟩ := hmem
    rw [List.mem_dedup, List.mem_map] at hk
    obtain ⟨r, hr, hkey⟩ := hk
    rw [List.mem_filter] at hr
    obtain ⟨hrdb, hradm⟩ := hr
    have hval : is_valid_numeric r.value = true := by
      have h := hradm
      simp only [admitted, Bool.and_eq_true] at h
      exact h.1.1.1.2
    cases hfl : (db.filter (admitted fvt cities lo hi)).filter
        (fun x => decide (groupKey unit x = k)) with
    | nil =>
      rw [hfl] at hsome
      exact absurd hsome (by simp)
    | cons r0 rest =>
      rw [hfl] at hsome
      injection hsome with hsome
      refine ⟨r, hrdb, hradm, hval, ?_, ?_⟩
      · rw [← hsome]
        show r.value_type = k.2.1
        rw [← hkey]
        rfl
      · rw [← hsome]
        show r.city = k.2.2
        rw [← hkey]
        rfl
  · intro now db p rows hok hall
    unfold statsRequest at hok
    cases hl : lookupValueTypes p.sensor_type with
    | none =>
      rw [hl] at hok
      exact absurd hok (by simp)
    | some allowed =>
      rw [hl] at hok
      cases hw : resolveWindowE now p.from_date p.to_date with
      | error e =>
        rw [hw] at hok
        exact absurd hok (by simp)
      | ok lohi =>
        obtain ⟨lo, hi⟩ := lohi
        rw [hw] at hok
        dsimp only [] at hok
        by_cases htr : truncUnitOk (p.avg.getD (("day").data)) = true
        · rw [if_pos htr] at hok
          injection hok with hok
          have hfe : db.filter (admitted (computeFilterValueTypes allowed p.value_type)
              (cityNamesOf p.city) lo hi) = [] :=
            filter_eq_nil_of_all_false _ _ (fun r hr => by simp [admitted, hall r hr])
          rw [← hok, hfe]
          rfl
        · rw [if_neg htr] at hok
          exact absurd hok (by simp)

/-- A single valid reading for exercising the aggregation. -/
def c4Reading : Reading :=
  { value_type := ("P1").data, value := ("5").data, timestamp := 0,
    city := ("Nairobi").data }

/-- The bucket the aggregation produces for `c4Reading` alone (the rational
fields are spelled as the aggregation computes them). -/
def c4Row : StatRow :=
  { city_name := ("Nairobi").data, start_datetime := 0, end_datetime := 0,
    average := ([c4Reading].map (fun r => parseDecimal r.value)).sum /
      ((([c4Reading] : List Reading).length : ℚ)),
    minimum := parseDecimal c4Reading.value, maximum := parseDecimal c4Reading.value,
    value_type := ("P1").data, sample_count := 1 }

lemma c4Agg_eq : aggregate (("day").data) [c4Reading] = [c4Row] := rfl

/-- C4 witness: the invariants at a concrete emitted bucket. -/
theorem C4_bucket_invariants_witness :
    c4Row ∈ aggregate (("day").data) [c4Reading] ∧
    (1 ≤ c4Row.sample_count ∧ c4Row.start_datetime ≤ c4Row.end_datetime) :=
  ⟨by rw [c4Agg_eq]; exact List.mem_singleton_self c4Row,
   C4_bucket_invariants.1 (("day").data) [c4Reading] c4Row
     (by rw [c4Agg_eq]; exact List.mem_singleton_self c4Row)⟩

/-- C5: over two grouped rows with the same city and value type, shaping
with a requested date range yields a 2-element sequence in encounter order
under that city and value type; shaping without a date range collapses
them to a single summary equal to the last-encountered row's. -/
theorem C5_shape_two_rows (r1 r2 : StatRow)
    (hc : r2.city_name = r1.city_name) (hv : r2.value_type = r1.value_type) :
    shape true [r1, r2] =
      [⟨r1.city_name, [(r1.value_type, VTEntry.ranged [summaryOf r1, summaryOf r2])]⟩] ∧
    shape false [r1, r2] =
      [⟨r1.city_name, [(r1.value_type, VTEntry.single (some (summaryOf r2)))]⟩] := by
  constructor <;>
    simp [shape, shapeStep, updateVTList, includeResult, emptyVT, hc, hv]

/-- A first grouped row. -/
def c5RowA : StatRow :=
  { city_name := ("Nairobi").data, start_datetime := 0, end_datetime := 1,
    average := 1, minimum := 0, maximum := 2, value_type := ("P1").data,
    sample_count := 2 }

/-- A second grouped row with the same city and value type. -/
def c5RowB : StatRow :=
  { city_name := ("Nairobi").data, start_datetime := 2, end_datetime := 3,
    average := 4, minimum := 3, maximum := 5, value_type := ("P1").data,
    sample_count := 1 }

/-- C5 witness: the two shaping modes at two concrete rows. -/
theorem C5_shape_two_rows_witness :
    shape true [c5RowA, c5RowB] =
      [⟨c5RowA.city_name, [(c5RowA.value_type,
        VTEntry.ranged [summaryOf c5RowA, summaryOf c5RowB])]⟩] ∧
    shape false [c5RowA, c5RowB] =
      [⟨c5RowA.city_name, [(c5RowA.value_type,
        VTEntry.single (some (summaryOf c5RowB)))]⟩] :=
  C5_shape_two_rows c5RowA c5RowB rfl rfl

/-! ## C10: case handling of the `value_type` parameter -/

/-- The allowed tags configured for the `air` sensor type. -/
def airValueTypes : List Str :=
  [("P1").data, ("P2").data, ("humidity").data, ("temperature").data]

/-- The uppercasing of the `air` tags. -/
def upperAirValueTypes : List Str :=
  [("P1").data, ("P2").data, ("HUMIDITY").data, ("TEMPERATURE").data]

/-- The stored `value_type` choices of the sensors migration
`0017_auto_20160416_1803` (case-sensitive tags, including lowercase
`humidity` and `temperature`). -/
def storedValueTypeChoices : List Str :=
  [("P1").data, ("P2").data, ("durP1").data, ("durP2").data, ("ratioP1").data,
   ("ratioP2").data, ("samples").data, ("min_micro").data, ("max_micro").data,
   ("temperature").data, ("humidity").data, ("pressure").data, ("altitude").data,
   ("pressure_sealevel").data, ("brightness").data, ("dust_density").data,
   ("vo_raw").data, ("voltage").data, ("P10").data, ("P25").data, ("durP10").data,
   ("durP25").data, ("ratioP10").data, ("ratioP25").data, ("door_state").data]

lemma mem_computeFilterValueTypes_air {p t : Str} (hp : p ≠ []) :
    t ∈ computeFilterValueTypes airValueTypes (some p) ↔
      (t ∈ splitComma (upperStr p) ∧ t ∈ upperAirValueTypes) := by
  have hpe : p.isEmpty = false := by
    cases p with
    | nil => exact absurd rfl hp
    | cons a b => rfl
  have hmap : airValueTypes.map upperStr = upperAirValueTypes := by decide
  simp only [computeFilterValueTypes, hpe, Bool.false_eq_true, if_false,
    List.mem_filter, decide_eq_true_eq, hmap]

lemma humidity_not_selected {p : Str} (hp : p ≠ []) (cities : List Str) (lo hi : Int)
    (r : Reading) (hvt : r.value_type = ("humidity").data) :
    admitted (computeFilterValueTypes airValueTypes (some p)) cities lo hi r = false := by
  have hniv : r.value_type ∉ computeFilterValueTypes airValueTypes (some p) := by
    rw [hvt]
    intro hmem
    have h2 := (mem_computeFilterValueTypes_air hp).mp hmem
    exact absurd h2.2 (by decide)
  simp [admitted, hniv]

/-- C10: with a truthy `value_type` parameter the tags actually used by the
filter are exactly the intersection of the uppercased caller-supplied tags
with the uppercased allowed tags — all uppercase strings — so a reading
stored under the lowercase tag `humidity` (a tag of the sensors migration's
case-sensitive enumeration) is never admitted; without the parameter the
allowed tags are used in their original case, which contains `humidity`. -/
theorem C10_value_type_uppercase :
    (lookupValueTypes (("air").data) = some airValueTypes) ∧
    (airValueTypes.map upperStr = upperAirValueTypes) ∧
    (∀ p t, p ≠ [] →
      (t ∈ computeFilterValueTypes airValueTypes (some p) ↔
        (t ∈ splitComma (upperStr p) ∧ t ∈ upperAirValueTypes))) ∧
    (∀ p cities lo hi r, p ≠ [] → r.value_type = ("humidity").data →
      admitted (computeFilterValueTypes airValueTypes (some p)) cities lo hi r = false) ∧
    computeFilterValueTypes airValueTypes none = airValueTypes ∧
    ("humidity").data ∈ storedValueTypeChoices ∧
    ("humidity").data ∈ airValueTypes ∧
    ("humidity").data ∉ upperAirValueTypes :=
  ⟨by decide, by decide,
    fun p t hp => mem_computeFilterValueTypes_air hp,
    fun p cities lo hi r hp hvt => humidity_not_selected hp cities lo hi r hvt,
    by decide, by decide, by decide, by decide⟩

/-- C10 witness: the filter set for `value_type=humidity,p1` contains `P1`
but readings typed `humidity` are rejected. -/
theorem C10_value_type_uppercase_witness :
    ("P1").data ∈ computeFilterValueTypes airValueTypes (some (("humidity,p1").data)) ∧
    admitted (computeFilterValueTypes airValueTypes (some (("humidity,p1").data))) [] 0 0
      { value_type := ("humidity").data, value := ("5").data, timestamp := 0,
        city := ("Nairobi").data } = false :=
  ⟨(C10_value_type_uppercase.2.2.1 (("humidity,p1").data) (("P1").data)
      (by decide)).mpr (by decide),
   C10_value_type_uppercase.2.2.2.1 (("humidity,p1").data) [] 0 0
     { value_type := ("humidity").data, value := ("5").data, timestamp := 0,
       city := ("Nairobi").data } (by decide) rfl⟩

/-! ## C8: characterization of `strptime("%Y-%m-%d")` acceptance -/

lemma isDigitChar_iff (a : Char) :
    isDigitChar a = true ↔ (48 ≤ a.toNat ∧ a.toNat ≤ 57) := by
  have h0 : ('0' : Char).toNat = 48 := rfl
  have h9 : ('9' : Char).toNat = 57 := rfl
  simp only [isDigitChar, Bool.and_eq_true, decide_eq_true_eq, char_le_iff_toNat, h0, h9]

lemma month1ok_iff (a : Char) :
    month1ok a = true ↔ (isDigitChar a = true ∧ 1 ≤ digitVal a ∧ digitVal a ≤ 9) := by
  have h1 : ('1' : Char).toNat = 49 := rfl
  have h9 : ('9' : Char).toNat = 57 := rfl
  simp only [month1ok, Bool.and_eq_true, decide_eq_true_eq, char_le_iff_toNat, h1, h9,
    isDigitChar_iff, digitVal]
  omega

lemma day1ok_iff (a : Char) :
    day1ok a = true ↔ (isDigitChar a = true ∧ 1 ≤ digitVal a ∧ digitVal a ≤ 9) := by
  have h1 : ('1' : Char).toNat = 49 := rfl
  have h9 : ('9' : Char).toNat = 57 := rfl
  simp only [day1ok, Bool.and_eq_true, decide_eq_true_eq, char_le_iff_toNat, h1, h9,
    isDigitChar_iff, digitVal]
  omega

lemma month2ok_iff (a b : Char) :
    month2ok a b = true ↔
      (isDigitChar a = true ∧ isDigitChar b = true ∧
       1 ≤ 10 * digitVal a + digitVal b ∧ 10 * digitVal a + digitVal b ≤ 12) := by
  have e0 : ('0' : Char).toNat = 48 := rfl
  have e1 : ('1' : Char).toNat = 49 := rfl
  have e2 : ('2' : Char).toNat = 50 := rfl
  have e9 : ('9' : Char).toNat = 57 := rfl
  simp only [month2ok, Bool.and_eq_true, Bool.or_eq_true, decide_eq_true_eq,
    char_le_iff_toNat, char_eq_iff_toNat, e0, e1, e2, e9, isDigitChar_iff, digitVal]
  omega

lemma day2ok_iff (a b : Char) :
    day2ok a b = true ↔
      (isDigitChar a = true ∧ isDigitChar b = true ∧
       1 ≤ 10 * digitVal a + digitVal b ∧ 10 * digitVal a + digitVal b ≤ 31) := by
  have e0 : ('0' : Char).toNat = 48 := rfl
  have e1 : ('1' : Char).toNat = 49 := rfl
  have e2 : ('2' : Char).toNat = 50 := rfl
  have e3 : ('3' : Char).toNat = 51 := rfl
  have e9 : ('9' : Char).toNat = 57 := rfl
  simp only [day2ok, Bool.and_eq_true, Bool.or_eq_true, decide_eq_true_eq,
    char_le_iff_toNat, char_eq_iff_toNat, e0, e1, e2, e3, e9, isDigitChar_iff, digitVal]
  omega

lemma natOfDigits_one (a : Char) : natOfDigits [a] = digitVal a := by
  simp [natOfDigits]

lemma natOfDigits_two (a b : Char) :
    natOfDigits [a, b] = 10 * digitVal a + digitVal b := by
  simp [natOfDigits]

lemma digitVal_le_of_digit {a : Char} (h : isDigitChar a = true) : digitVal a ≤ 9 := by
  rw [isDigitChar_iff] at h
  unfold digitVal
  omega

lemma daysInMonth_le (y m : Nat) : daysInMonth y m ≤ 31 := by
  unfold daysInMonth
  split
  · split <;> omega
  · split <;> omega

lemma parseMonthDash_eq_some {l : Str} {m : Nat} {rest : Str} :
    parseMonthDash l = some (m, rest) ↔
      ((∃ a, l = a :: '-' :: rest ∧ month1ok a = true ∧ m = digitVal a) ∨
       (∃ a b, l = a :: b :: '-' :: rest ∧ b ≠ '-' ∧ month2ok a b = true ∧
        m = 10 * digitVal a + digitVal b)) := by
  constructor
  · intro h
    cases l with
    | nil => exact Option.noConfusion h
    | cons a l1 =>
      cases l1 with
      | nil => exact Option.noConfusion h
      | cons b r =>
        by_cases hb : b = '-'
        · subst hb
          simp only [parseMonthDash, eq_self_iff_true, if_true] at h
          by_cases hm : month1ok a = true
          · rw [if_pos hm] at h
            simp only [Option.some.injEq, Prod.mk.injEq] at h
            exact Or.inl ⟨a, by rw [h.2], hm, h.1.symm⟩
          · rw [if_neg hm] at h
            simp at h
        · simp only [parseMonthDash, if_neg hb] at h
          cases r with
          | nil => exact Option.noConfusion h
          | cons c r2 =>
            simp only [parseMonth2Tail] at h
            by_cases hc : c = '-'
            · subst hc
              rw [if_pos rfl] at h
              by_cases hm2 : month2ok a b = true
              · rw [if_pos hm2] at h
                simp only [Option.some.injEq, Prod.mk.injEq] at h
                exact Or.inr ⟨a, b, by rw [h.2], hb, hm2, h.1.symm⟩
              · rw [if_neg hm2] at h
                simp at h
            · rw [if_neg hc] at h
              simp at h
  · rintro (⟨a, rfl, hm, rfl⟩ | ⟨a, b, rfl, hb, hm2, rfl⟩)
    · simp [parseMonthDash, hm]
    · simp [parseMonthDash, parseMonth2Tail, hb, hm2]

lemma parseDayEnd_eq_some {l : Str} {d : Nat} :
    parseDayEnd l = some d ↔
      ((∃ a, l = [a] ∧ day1ok a = true ∧ d = digitVal a) ∨
       (∃ a b, l = [a, b] ∧ day2ok a b = true ∧ d = 10 * digitVal a + digitVal b)) := by
  constructor
  · intro h
    cases l with
    | nil => simp [parseDayEnd] at h
    | cons a l1 =>
      cases l1 with
      | nil =>
        simp only [parseDayEnd] at h
        by_cases ha : day1ok a = true
        · rw [if_pos ha] at h
          simp only [Option.some.injEq] at h
          exact Or.inl ⟨a, rfl, ha, h.symm⟩
        · rw [if_neg ha] at h
          simp at h
      | cons b l2 =>
        cases l2 with
        | nil =>
          simp only [parseDayEnd] at h
          by_cases hab : day2ok a b = true
          · rw [if_pos hab] at h
            simp only [Option.some.injEq] at h
            exact Or.inr ⟨a, b, rfl, hab, h.symm⟩
          · rw [if_neg hab] at h
            simp at h
        | cons c l3 => simp [parseDayEnd] at h
  · rintro (⟨a, rfl, ha, rfl⟩ | ⟨a, b, rfl, hab, rfl⟩)
    · simp [parseDayEnd, ha]
    · simp [parseDayEnd, hab]

lemma parseYMD_eq_some {s : Str} {y m d : Nat} :
    parseYMD s = some (y, m, d) ↔
      ∃ c1 c2 c3 c4 rest, s = c1 :: c2 :: c3 :: c4 :: '-' :: rest ∧
        isDigitChar c1 = true ∧ isDigitChar c2 = true ∧ isDigitChar c3 = true ∧
        isDigitChar c4 = true ∧ y = natOfDigits [c1, c2, c3, c4] ∧
        ∃ rest2, parseMonthDash rest = some (m, rest2) ∧ parseDayEnd rest2 = some d := by
  constructor
  · intro h
    cases s with
    | nil => simp [parseYMD] at h
    | cons c1 s1 =>
    cases s1 with
    | nil => simp [parseYMD] at h
    | cons c2 s2 =>
    cases s2 with
    | nil => simp [parseYMD] at h
    | cons c3 s3 =>
    cases s3 with
    | nil => simp [parseYMD] at h
    | cons c4 s4 =>
    cases s4 with
    | nil => simp [parseYMD] at h
    | cons c5 rest =>
      simp only [parseYMD] at h
      by_cases hcond : c5 = '-' ∧ isDigitChar c1 = true ∧ isDigitChar c2 = true ∧
          isDigitChar c3 = true ∧ isDigitChar c4 = true
      · rw [if_pos hcond] at h
        obtain ⟨hc5, h1, h2, h3, h4⟩ := hcond
        subst hc5
        cases hpm : parseMonthDash rest with
        | none =>
          rw [hpm] at h
          exact Option.noConfusion h
        | some mr =>
          obtain ⟨m0, rest2⟩ := mr
          rw [hpm] at h
          dsimp only [] at h
          cases hpd : parseDayEnd rest2 with
          | none =>
            rw [hpd] at h
            exact Option.noConfusion h
          | some d0 =>
            rw [hpd] at h
            dsimp only [] at h
            simp only [Option.some.injEq, Prod.mk.injEq] at h
            obtain ⟨hy, hm, hd⟩ := h
            subst hm
            subst hd
            exact ⟨c1, c2, c3, c4, rest, rfl, h1, h2, h3, h4, hy.symm,
              rest2, hpm, hpd⟩
      · rw [if_neg hcond] at h
        simp at h
  · rintro ⟨c1, c2, c3, c4, rest, rfl, h1, h2, h3, h4, rfl, rest2, hpm, hpd⟩
    simp [parseYMD, hpm, hpd, h1, h2, h3, h4]

/-- The format `strptime("%Y-%m-%d")` actually accepts: a 4-digit year, a
dash, a 1- or 2-digit month, a dash and a 1- or 2-digit day (zero padding
optional), all ASCII digits, denoting a valid proleptic-Gregorian calendar
date with year at least 1. -/
def flexYMDLang (s : Str) : Prop :=
  ∃ ys ms ds,
    s = ys ++ '-' :: (ms ++ '-' :: ds) ∧
    ys.length = 4 ∧ (∀ c ∈ ys, isDigitChar c = true) ∧
    (ms.length = 1 ∨ ms.length = 2) ∧ (∀ c ∈ ms, isDigitChar c = true) ∧
    (ds.length = 1 ∨ ds.length = 2) ∧ (∀ c ∈ ds, isDigitChar c = true) ∧
    1 ≤ natOfDigits ys ∧ 1 ≤ natOfDigits ms ∧ natOfDigits ms ≤ 12 ∧
    1 ≤ natOfDigits ds ∧
    natOfDigits ds ≤ daysInMonth (natOfDigits ys) (natOfDigits ms)

lemma flexMonth_of_parse {l : Str} {m : Nat} {rest : Str}
    (h : parseMonthDash l = some (m, rest)) :
    ∃ ms, l = ms ++ '-' :: rest ∧ (ms.length = 1 ∨ ms.length = 2) ∧
      (∀ c ∈ ms, isDigitChar c = true) ∧ natOfDigits ms = m ∧ 1 ≤ m ∧ m ≤ 12 := by
  rw [parseMonthDash_eq_some] at h
  rcases h with ⟨a, rfl, hma, rfl⟩ | ⟨a, b, rfl, hbne, hmab, rfl⟩
  · obtain ⟨hda, hlo, hhi⟩ := (month1ok_iff a).mp hma
    refine ⟨[a], by simp, Or.inl rfl, ?_, natOfDigits_one a, hlo, by omega⟩
    intro c hc
    simp at hc
    subst hc
    exact hda
  · obtain ⟨hda, hdb, hlo, hhi⟩ := (month2ok_iff a b).mp hmab
    refine ⟨[a, b], by simp, Or.inr rfl, ?_, natOfDigits_two a b, hlo, hhi⟩
    intro c hc
    simp at hc
    rcases hc with rfl | rfl
    · exact hda
    · exact hdb

lemma flexDay_of_parse {l : Str} {d : Nat} (h : parseDayEnd l = some d) :
    (l.length = 1 ∨ l.length = 2) ∧ (∀ c ∈ l, isDigitChar c = true) ∧
      natOfDigits l = d ∧ 1 ≤ d ∧ d ≤ 31 := by
  rw [parseDayEnd_eq_some] at h
  rcases h with ⟨a, rfl, hda, rfl⟩ | ⟨a, b, rfl, hdab, rfl⟩
  · obtain ⟨hd, hlo, hhi⟩ := (day1ok_iff a).mp hda
    refine ⟨Or.inl rfl, ?_, natOfDigits_one a, hlo, by omega⟩
    intro c hc
    simp at hc
    subst hc
    exact hd
  · obtain ⟨hda2, hdb2, hlo, hhi⟩ := (day2ok_iff a b).mp hdab
    refine ⟨Or.inr rfl, ?_, natOfDigits_two a b, hlo, hhi⟩
    intro c hc
    simp at hc
    rcases hc with rfl | rfl
    · exact hda2
    · exact hdb2

lemma parseMonthDash_of_flex {ms ds : Str} (hml : ms.length = 1 ∨ ms.length = 2)
    (hmd : ∀ c ∈ ms, isDigitChar c = true) (hm1 : 1 ≤ natOfDigits ms)
    (hm12 : natOfDigits ms ≤ 12) :
    parseMonthDash (ms ++ '-' :: ds) = some (natOfDigits ms, ds) := by
  rcases hml with hml | hml
  · obtain ⟨a, rfl⟩ : ∃ a, ms = [a] := by
      cases ms with
      | nil => simp at hml
      | cons a t =>
        cases t with
        | nil => exact ⟨a, rfl⟩
        | cons b t2 => simp only [List.length_cons] at hml; omega
    have hda : isDigitChar a = true := hmd a (by simp)
    rw [natOfDigits_one] at hm1 ⊢
    rw [parseMonthDash_eq_some]
    exact Or.inl ⟨a, by simp, (month1ok_iff a).mpr ⟨hda, hm1, digitVal_le_of_digit hda⟩, rfl⟩
  · obtain ⟨a, b, rfl⟩ : ∃ a b, ms = [a, b] := by
      cases ms with
      | nil => simp at hml
      | cons a t =>
        cases t with
        | nil => simp at hml
        | cons b t2 =>
          cases t2 with
          | nil => exact ⟨a, b, rfl⟩
          | cons c t3 => simp only [List.length_cons] at hml; omega
    have hda : isDigitChar a = true := hmd a (by simp)
    have hdb : isDigitChar b = true := hmd b (by simp)
    rw [natOfDigits_two] at hm1 hm12 ⊢
    rw [parseMonthDash_eq_some]
    exact Or.inr ⟨a, b, by simp, digit_ne_minus hdb,
      (month2ok_iff a b).mpr ⟨hda, hdb, hm1, hm12⟩, rfl⟩

lemma parseDayEnd_of_flex {ds : Str} (hdl : ds.length = 1 ∨ ds.length = 2)
    (hdd : ∀ c ∈ ds, isDigitChar c = true) (hd1 : 1 ≤ natOfDigits ds)
    (hd31 : natOfDigits ds ≤ 31) :
    parseDayEnd ds = some (natOfDigits ds) := by
  rcases hdl with hdl | hdl
  · obtain ⟨a, rfl⟩ : ∃ a, ds = [a] := by
      cases ds with
      | nil => simp at hdl
      | cons a t =>
        cases t with
        | nil => exact ⟨a, rfl⟩
        | cons b t2 => simp only [List.length_cons] at hdl; omega
    have hda : isDigitChar a = true := hdd a (by simp)
    rw [natOfDigits_one] at hd1 ⊢
    rw [parseDayEnd_eq_some]
    exact Or.inl ⟨a, rfl, (day1ok_iff a).mpr ⟨hda, hd1, digitVal_le_of_digit hda⟩, rfl⟩
  · obtain ⟨a, b, rfl⟩ : ∃ a b, ds = [a, b] := by
      cases ds with
      | nil => simp at hdl
      | cons a t =>
        cases t with
        | nil => simp at hdl
        | cons b t2 =>
          cases t2 with
          | nil => exact ⟨a, b, rfl⟩
          | cons c t3 => simp only [List.length_cons] at hdl; omega
    have hda : isDigitChar a = true := hdd a (by simp)
    have hdb : isDigitChar b = true := hdd b (by simp)
    rw [natOfDigits_two] at hd1 hd31 ⊢
    rw [parseDayEnd_eq_some]
    exact Or.inr ⟨a, b, rfl, (day2ok_iff a b).mpr ⟨hda, hdb, hd1, hd31⟩, rfl⟩

/-- C8 (amended): a supplied date string is accepted by `validate_date`
exactly when it is a 4-digit year, a dash, a 1- or 2-digit month, a dash
and a 1- or 2-digit day — zero padding of month and day optional — forming
a valid calendar date (year ≥ 1, month 1..12, day within the month). The
exact zero-padded `YYYY-MM-DD` strings are accepted, but so are shorter
ones such as `2023-1-5`. -/
theorem C8_strptime_flexible (s : Str) : validate_date s = true ↔ flexYMDLang s := by
  unfold validate_date
  rw [Option.isSome_iff_exists]
  constructor
  · rintro ⟨⟨y, m, d⟩, hv⟩
    unfold strptimeYMD at hv
    cases hp : parseYMD s with
    | none =>
      rw [hp] at hv
      exact Option.noConfusion hv
    | some v0 =>
      obtain ⟨y0, m0, d0⟩ := v0
      rw [hp] at hv
      dsimp only [] at hv
      by_cases hcond : 1 ≤ y0 ∧ d0 ≤ daysInMonth y0 m0
      · obtain ⟨hy1, hdm⟩ := hcond
        rw [parseYMD_eq_some] at hp
        obtain ⟨c1, c2, c3, c4, rest, rfl, h1, h2, h3, h4, hy0, rest2, hpm, hpd⟩ := hp
        obtain ⟨ms, hrest, hml, hmd, hmv, hm1, hm12⟩ := flexMonth_of_parse hpm
        obtain ⟨hdl, hdd, hdv, hd1, hd31⟩ := flexDay_of_parse hpd
        subst hrest
        refine ⟨[c1, c2, c3, c4], ms, rest2, by simp, rfl, ?_, hml, hmd, hdl, hdd,
          ?_, ?_, ?_, ?_, ?_⟩
        · intro c hc
          simp at hc
          rcases hc with rfl | rfl | rfl | rfl
          · exact h1
          · exact h2
          · exact h3
          · exact h4
        · rw [← hy0]
          exact hy1
        · rw [hmv]
          exact hm1
        · rw [hmv]
          exact hm12
        · rw [hdv]
          exact hd1
        · rw [hdv, hmv, ← hy0]
          exact hdm
      · rw [if_neg hcond] at hv
        exact Option.noConfusion hv
  · rintro ⟨ys, ms, ds, rfl, hyl, hyd, hml, hmd, hdl, hdd, hy1, hm1, hm12, hd1, hdm⟩
    obtain ⟨c1, c2, c3, c4, rfl⟩ : ∃ a b c d, ys = [a, b, c, d] := by
      cases ys with
      | nil => simp only [List.length_nil] at hyl; omega
      | cons a t1 =>
        cases t1 with
        | nil => simp only [List.length_cons, List.length_nil] at hyl; omega
        | cons b t2 =>
          cases t2 with
          | nil => simp only [List.length_cons, List.length_nil] at hyl; omega
          | cons c t3 =>
            cases t3 with
            | nil => simp only [List.length_cons, List.length_nil] at hyl; omega
            | cons d t4 =>
              cases t4 with
              | nil => exact ⟨a, b, c, d, rfl⟩
              | cons e t5 => simp only [List.length_cons] at hyl; omega
    have hd31 : natOfDigits ds ≤ 31 :=
      le_trans hdm (daysInMonth_le (natOfDigits [c1, c2, c3, c4]) (natOfDigits ms))
    have hpm := @parseMonthDash_of_flex ms ds hml hmd hm1 hm12
    have hpd := parseDayEnd_of_flex hdl hdd hd1 hd31
    refine ⟨(natOfDigits [c1, c2, c3, c4], natOfDigits ms, natOfDigits ds), ?_⟩
    unfold strptimeYMD
    have hp : parseYMD ([c1, c2, c3, c4] ++ '-' :: (ms ++ '-' :: ds)) =
        some (natOfDigits [c1, c2, c3, c4], natOfDigits ms, natOfDigits ds) := by
      rw [parseYMD_eq_some]
      exact ⟨c1, c2, c3, c4, ms ++ '-' :: ds, by simp,
        hyd c1 (by simp), hyd c2 (by simp), hyd c3 (by simp), hyd c4 (by simp),
        rfl, ds, hpm, hpd⟩
    rw [hp]
    dsimp only []
    rw [if_pos ⟨hy1, hdm⟩]

/-- C8 counterexample: `2023-1-5` is accepted by the source's
`validate_date` although it does not match the exact zero-padded
`YYYY-MM-DD` format the claim requires. -/
theorem C8_counterexample :
    validate_date (("2023-1-5").data) = true ∧
    specExactYMD (("2023-1-5").data) = false :=
  ⟨by decide, by decide⟩

/-! ## C9: fleet status and nodes without sensors -/

lemma processSnapshot_ok_sensors {db : FleetDb} {s : LastActive} {st : NodeStatus}
    (h : processSnapshot db s = .ok st) :
    ∃ n ∈ db.nodes, n.nodeId = st.node_id ∧ n.sensors ≠ [] := by
  unfold processSnapshot at h
  cases hfl : db.nodes.filter
      (fun n => decide (n.nodeId = s.nodeId) && !n.sensors.isEmpty) with
  | nil =>
    rw [hfl] at h
    exact Except.noConfusion h
  | cons n t =>
    cases t with
    | nil =>
      rw [hfl] at h
      dsimp only [] at h
      injection h with h
      have hn : n ∈ db.nodes.filter
          (fun n => decide (n.nodeId = s.nodeId) && !n.sensors.isEmpty) := by
        rw [hfl]
        simp
      rw [List.mem_filter] at hn
      obtain ⟨hmem, hpred⟩ := hn
      simp only [Bool.and_eq_true, decide_eq_true_eq, Bool.not_eq_true'] at hpred
      refine ⟨n, hmem, ?_, ?_⟩
      · rw [← h]
        exact hpred.1
      · intro habs
        rw [habs] at hpred
        simp at hpred
    | cons n2 t2 =>
      rw [hfl] at h
      exact Except.noConfusion h

lemma nodesListGo_ok {db : FleetDb} :
    ∀ (l : List LastActive) (sts : List NodeStatus), nodesListGo db l = .ok sts →
      ∀ st ∈ sts, ∃ n ∈ db.nodes, n.nodeId = st.node_id ∧ n.sensors ≠ [] := by
  intro l
  induction l with
  | nil =>
    intro sts h st hst
    injection h with h
    rw [← h] at hst
    simp at hst
  | cons s rest ih =>
    intro sts h st hst
    unfold nodesListGo at h
    cases hps : processSnapshot db s with
    | error e =>
      rw [hps] at h
      exact Except.noConfusion h
    | ok st0 =>
      rw [hps] at h
      dsimp only [] at h
      cases hgo : nodesListGo db rest with
      | error e =>
        rw [hgo] at h
        exact Except.noConfusion h
      | ok sts2 =>
        rw [hgo] at h
        dsimp only [] at h
        injection h with h
        rw [← h] at hst
        rcases List.mem_cons.mp hst with rfl | hst2
        · exact processSnapshot_ok_sensors hps
        · exact ih sts2 hgo st hst2

lemma nodesListGo_error_of_mem {db : FleetDb} {s : LastActive} {e : FleetError}
    (hs : processSnapshot db s = .error e) :
    ∀ l, s ∈ l → ∀ sts, nodesListGo db l ≠ .ok sts := by
  intro l
  induction l with
  | nil =>
    intro h
    simp at h
  | cons s0 rest ih =>
    intro hmem sts habs
    unfold nodesListGo at habs
    cases hps : processSnapshot db s0 with
    | error e0 =>
      rw [hps] at habs
      exact Except.noConfusion habs
    | ok st0 =>
      rw [hps] at habs
      dsimp only [] at habs
      rcases List.mem_cons.mp hmem with rfl | hmem2
      · rw [hs] at hps
        exact Except.noConfusion hps
      · cases hgo : nodesListGo db rest with
        | error e2 =>
          rw [hgo] at habs
          exact Except.noConfusion habs
        | ok sts2 => exact ih hmem2 sts2 hgo

lemma processSnapshot_error_of_no_sensors {db : FleetDb} {s : LastActive}
    (h : ∀ n ∈ db.nodes, n.nodeId = s.nodeId → n.sensors = []) :
    processSnapshot db s = .error .doesNotExist := by
  unfold processSnapshot
  have hfl : db.nodes.filter
      (fun n => decide (n.nodeId = s.nodeId) && !n.sensors.isEmpty) = [] := by
    apply filter_eq_nil_of_all_false
    intro n hn
    by_cases hid : n.nodeId = s.nodeId
    · have hse := h n hn hid
      simp [hid, hse]
    · simp [hid]
  rw [hfl]

/-- A location used by the C9 scenario. -/
def c9Loc : Location :=
  { locId := 1, name := ("Site A").data, longitude := 0, latitude := 0,
    city := ("Nairobi").data }

/-- A node with no sensors. -/
def c9Node1 : NodeRec :=
  { nodeId := 1, uid := ("esp-1").data, location := c9Loc, sensors := [] }

/-- A node with one sensor. -/
def c9Node2 : NodeRec :=
  { nodeId := 2, uid := ("esp-2").data, location := c9Loc, sensors := [10] }

/-- Snapshot of the sensorless node. -/
def c9Snap1 : LastActive :=
  { nodeId := 1, location := c9Loc, last_data_received_at := none }

/-- Snapshot of the healthy node. -/
def c9Snap2 : LastActive :=
  { nodeId := 2, location := c9Loc, last_data_received_at := none }

/-- Fleet state with both snapshots. -/
def c9Db : FleetDb :=
  { nodes := [c9Node1, c9Node2], lastActive := [c9Snap1, c9Snap2],
    sensorValues := [] }

/-- Fleet state with only the healthy snapshot. -/
def c9DbOnly2 : FleetDb :=
  { nodes := [c9Node1, c9Node2], lastActive := [c9Snap2], sensorValues := [] }

/-- C9 counterexample: with the sensorless node's snapshot present, the
whole fleet request fails with the uncaught `DoesNotExist` — the healthy
node, which alone would be emitted (second conjunct), is not emitted, so
the remaining snapshots are NOT still emitted as the claim states. -/
theorem C9_counterexample :
    nodesList c9Db = .error .doesNotExist ∧
    (nodesList c9DbOnly2).map List.length = .ok 1 :=
  ⟨by decide, by decide⟩

/-- C9 (amended): a node with zero sensors never appears in the fleet
output — every emitted status names a node with at least one sensor — but
the offending row is not merely skipped: the unhandled lookup failure
aborts the whole request, so no statuses at all are returned when any
snapshot references a sensorless node. -/
theorem C9_no_sensor_node :
    (∀ (db : FleetDb) (sts : List NodeStatus), nodesList db = .ok sts →
      ∀ st ∈ sts, ∃ n ∈ db.nodes, n.nodeId = st.node_id ∧ n.sensors ≠ []) ∧
    (∀ (db : FleetDb) (s : LastActive), s ∈ db.lastActive →
      (∀ n ∈ db.nodes, n.nodeId = s.nodeId → n.sensors = []) →
      ∀ sts, nodesList db ≠ .ok sts) :=
  ⟨fun db sts h => nodesListGo_ok db.lastActive sts h,
   fun db _ hmem hns sts =>
     nodesListGo_error_of_mem (processSnapshot_error_of_no_sensors hns)
       db.lastActive hmem sts⟩

/-- C9 witness: the sensorless snapshot aborts the concrete fleet request. -/
theorem C9_no_sensor_node_witness :
    c9Snap1 ∈ c9Db.lastActive ∧ nodesList c9Db ≠ .ok [] :=
  ⟨by decide, C9_no_sensor_node.2 c9Db c9Snap1 (by decide) (by decide) []⟩
